import Mathlib

/-!
Verification of the sparsity-preserving gradient-masking subsystem of
`fsdp_finetune.py` (ICLR-2023-Sparse-GPT-Finetuning).

The repository's own logic is the masking code inside `training_function`:

```python
for name, param in model.named_parameters():
    if 'weight' in name and check_whitelist(name):
        mask = param != 0
        def hook(grad, mask=mask):
            return grad * mask.float()
        param.register_hook(hook)
```

together with the checkpointing-steps validation (lines 98-108), the
training loop's step-checkpoint saving (lines 268-273), the hook cleanup
and final save (lines 292-296), and the `remove_all_hooks` helper.

Tensors are shallowly embedded as flat `List ℚ` (real arithmetic stands in
for floating point; the numeric-precision *metadata* relevant to the
`.float()` cast is modelled separately by `DType`).  Python-level control
flow is embedded as Lean functions over explicit state, and the
`training_function` body as an event-trace generator inside `Except`.
-/

/-- A parameter / gradient tensor, flattened to its element list. -/
abbrev Tensor := List ℚ

/-- `mask = param != 0` (line 176): elementwise boolean tensor, `true`
exactly at nonzero positions. -/
def maskOf (param : Tensor) : List Bool :=
  param.map (fun x => decide (x ≠ 0))

/-- `mask.float()` elementwise: `True ↦ 1.0`, `False ↦ 0.0`. -/
def boolToQ (b : Bool) : ℚ :=
  if b then 1 else 0

/-- `mask.float()` (line 179): cast of a boolean tensor to a 0/1 numeric
tensor. -/
def maskFloat (m : List Bool) : Tensor :=
  m.map boolToQ

/-- The registered gradient hook (lines 178-179):
`hook(grad) = grad * mask.float()`, elementwise product with the captured
mask. -/
def hook (mask : List Bool) (grad : Tensor) : Tensor :=
  List.zipWith (· * ·) grad (maskFloat mask)

/-- Coordinatewise view of the hook at one position of the tensor. -/
def hookApply (maskBit : Bool) (g : ℚ) : ℚ :=
  g * boolToQ maskBit

theorem maskOf_length (P : Tensor) : (maskOf P).length = P.length := by
  simp [maskOf]

theorem maskFloat_length (m : List Bool) : (maskFloat m).length = m.length := by
  simp [maskFloat]

theorem maskOf_getD (P : Tensor) (i : ℕ) (hi : i < P.length) :
    (maskOf P).getD i false = decide (P.getD i 0 ≠ 0) := by
  simp [maskOf, List.getD_eq_getElem?_getD, List.getElem?_map,
    List.getElem?_eq_getElem hi]

theorem maskFloat_getD (m : List Bool) (i : ℕ) (hi : i < m.length) :
    (maskFloat m).getD i 0 = boolToQ (m.getD i false) := by
  simp [maskFloat, List.getD_eq_getElem?_getD, List.getElem?_map,
    List.getElem?_eq_getElem hi]

theorem hook_getD (mask : List Bool) (grad : Tensor) (i : ℕ)
    (hg : i < grad.length) (hm : i < mask.length) :
    (hook mask grad).getD i 0 = grad.getD i 0 * boolToQ (mask.getD i false) := by
  have hlen : i < (hook mask grad).length := by
    simp [hook, List.length_zipWith, maskFloat_length]
    omega
  have hmf : i < (maskFloat mask).length := by rw [maskFloat_length]; exact hm
  simp only [List.getD_eq_getElem?_getD, List.getElem?_eq_getElem hlen,
    List.getElem?_eq_getElem hg, List.getElem?_eq_getElem hm]
  simp only [hook, List.getElem_zipWith, Option.getD_some]
  simp [maskFloat, List.getElem_map]

/-- **C2.** For every parameter tensor `P`, the mask computed at
registration (`mask = param != 0`) has the same shape as `P`, and its
numeric (`.float()`) form is `0` at an index exactly when `P` is `0`
there, and `1` otherwise. -/
theorem mask_correctness (P : Tensor) :
    (maskOf P).length = P.length ∧
    ∀ i : ℕ, i < P.length →
      ((maskFloat (maskOf P)).getD i 0 = 0 ↔ P.getD i 0 = 0) ∧
      (P.getD i 0 ≠ 0 → (maskFloat (maskOf P)).getD i 0 = 1) := by
  refine ⟨maskOf_length P, fun i hi => ?_⟩
  have hm : i < (maskOf P).length := by rw [maskOf_length]; exact hi
  rw [maskFloat_getD _ i hm, maskOf_getD P i hi]
  by_cases h : P.getD i 0 = 0 <;> simp [h, boolToQ]

/-- Witness for `mask_correctness` at `P = [0, 5/2, 0, -1]`. -/
theorem mask_correctness_witness :
    (maskOf [(0 : ℚ), 5/2, 0, -1]).length = 4 ∧
    ((maskFloat (maskOf [(0 : ℚ), 5/2, 0, -1])).getD 1 0 = 0 ↔
      ([(0 : ℚ), 5/2, 0, -1].getD 1 0 = 0)) ∧
    ([(0 : ℚ), 5/2, 0, -1].getD 1 0 ≠ 0 →
      (maskFloat (maskOf [(0 : ℚ), 5/2, 0, -1])).getD 1 0 = 1) :=
  ⟨(mask_correctness [(0 : ℚ), 5/2, 0, -1]).1,
   ((mask_correctness [(0 : ℚ), 5/2, 0, -1]).2 1 (by decide)).1,
   ((mask_correctness [(0 : ℚ), 5/2, 0, -1]).2 1 (by decide)).2⟩

/-- **C3.** For a gradient `G` of the same shape as the captured mask `M`,
the hook's output `H = G * M.float()` is `0` wherever `M` is `0` and
equals `G` wherever `M` is `1`. -/
theorem gradient_suppression (M : List Bool) (G : Tensor)
    (hlen : G.length = M.length) (i : ℕ) (hi : i < G.length) :
    (M.getD i false = false → (hook M G).getD i 0 = 0) ∧
    (M.getD i false = true → (hook M G).getD i 0 = G.getD i 0) := by
  have hm : i < M.length := by omega
  rw [hook_getD M G i hi hm]
  constructor
  · intro h; rw [h]; simp [boolToQ]
  · intro h; rw [h]; simp [boolToQ]

/-- Witness for `gradient_suppression` at
`M = [false, true]`, `G = [3/10, 1/10]`, `i = 0`. -/
theorem gradient_suppression_witness :
    (([false, true].getD 0 false = false →
        (hook [false, true] [(3 : ℚ)/10, 1/10]).getD 0 0 = 0) ∧
     ([false, true].getD 0 false = true →
        (hook [false, true] [(3 : ℚ)/10, 1/10]).getD 0 0 =
          [(3 : ℚ)/10, 1/10].getD 0 0)) :=
  gradient_suppression [false, true] [(3 : ℚ)/10, 1/10] (by decide) 0 (by decide)

/-! ### Numeric precision of the hook output (C4)

`mask.float()` casts the boolean mask to `torch.float32` unconditionally,
and `grad * mask.float()` then follows PyTorch's binary type promotion:
the result dtype is the higher-category/wider of the two operand dtypes
(with `float16 * bfloat16 → float32`). -/

/-- Floating-point dtypes a gradient tensor can carry. -/
inductive DType
  | float16
  | bfloat16
  | float32
  | float64
deriving DecidableEq

/-- PyTorch binary type promotion restricted to floating dtypes:
`float64` dominates, then `float32`; the two half-precision dtypes
promote with each other to `float32`. -/
def promoteDType : DType → DType → DType
  | .float64, _ => .float64
  | _, .float64 => .float64
  | .float32, _ => .float32
  | _, .float32 => .float32
  | a, b => if a = b then a else .float32

/-- A tensor together with its dtype. -/
structure TTensor where
  dtype : DType
  data : Tensor
deriving DecidableEq

/-- `mask.float()` (line 179): the boolean mask becomes a `float32`
tensor of 0s and 1s. -/
def maskDotFloat (m : List Bool) : TTensor :=
  ⟨DType.float32, maskFloat m⟩

/-- The hook with dtype tracked: `grad * mask.float()` promotes the
gradient's dtype with `float32` and multiplies elementwise. -/
def hookTyped (mask : List Bool) (grad : TTensor) : TTensor :=
  ⟨promoteDType grad.dtype (maskDotFloat mask).dtype,
   List.zipWith (· * ·) grad.data (maskDotFloat mask).data⟩

/-- **C4 counterexample.** The claim says the returned masked gradient has
the numeric precision of the incoming gradient; but for a `float16`
gradient the hook returns a `float32` tensor, because the mask is cast to
`float32` (not to the gradient's dtype) and multiplication promotes. -/
theorem hook_dtype_counterexample :
    (hookTyped [true] ⟨DType.float16, [1]⟩).dtype = DType.float32 ∧
    DType.float32 ≠ DType.float16 := by
  constructor
  · rfl
  · decide

/-- **C4 (amended).** The hook casts the mask to single precision
(`float32`), not to the gradient's dtype; the output dtype is the
promotion of the gradient's dtype with `float32`, which equals the
incoming dtype exactly when that dtype is `float32` or `float64` —
half-precision gradients are upcast to `float32`.  The data is still the
elementwise product of the gradient with the 0/1 mask. -/
theorem hook_dtype_promotion (mask : List Bool) (grad : TTensor) :
    (hookTyped mask grad).dtype = promoteDType grad.dtype DType.float32 ∧
    ((hookTyped mask grad).dtype = grad.dtype ↔
      (grad.dtype = DType.float32 ∨ grad.dtype = DType.float64)) ∧
    (hookTyped mask grad).data = hook mask grad.data := by
  refine ⟨rfl, ?_, rfl⟩
  cases h : grad.dtype <;> simp [hookTyped, maskDotFloat, promoteDType, h]

/-! ### Mask selector and hook registration (C5)

Lines 174-180: a hook is registered on a named parameter iff
`'weight' in name and check_whitelist(name)`.  `check_whitelist` lives in
`utils/prehook_utils.py` and is treated, as in the spec, as an external
opaque whitelist predicate `W`. -/

/-- Python's substring test `sub in s`. -/
def pyIn (sub s : String) : Bool :=
  decide (sub.toList <:+: s.toList)

/-- The per-parameter selector implicit in lines 174-176: yields the
registration-time mask when the name contains `"weight"` and passes the
whitelist, and nothing otherwise. -/
def selectParam (W : String → Bool) (name : String) (param : Tensor) :
    Option (List Bool) :=
  if pyIn "weight" name && W name then some (maskOf param) else none

/-- A registered masking hook: the parameter name and the captured mask. -/
structure HookEntry where
  name : String
  mask : List Bool
deriving DecidableEq

/-- The registration loop of lines 174-180 over `model.named_parameters()`:
one `HookEntry` per parameter the selector accepts. -/
def installAll (W : String → Bool) (params : List (String × Tensor)) :
    List HookEntry :=
  params.filterMap fun p => (selectParam W p.1 p.2).map fun m => ⟨p.1, m⟩

/-- **C5.** A masking hook is registered on a named parameter iff its name
contains the substring `"weight"` and satisfies the external whitelist
predicate; for any other name the selector yields nothing, hence no hook. -/
theorem hook_registration_iff (W : String → Bool)
    (params : List (String × Tensor)) (name : String) (param : Tensor)
    (hmem : (name, param) ∈ params) :
    ((∃ e ∈ installAll W params, e.name = name) ↔
      (pyIn "weight" name && W name) = true) ∧
    (selectParam W name param = none ↔ ¬((pyIn "weight" name && W name) = true)) := by
  constructor
  · constructor
    · rintro ⟨e, he, rfl⟩
      rcases List.mem_filterMap.1 he with ⟨⟨n, t⟩, _, hsel⟩
      simp only [selectParam] at hsel
      by_cases h : (pyIn "weight" n && W n) = true
      · rw [if_pos h] at hsel
        obtain rfl : HookEntry.mk n (maskOf t) = e := by
          simpa using hsel
        exact h
      · simp [h] at hsel
    · intro h
      refine ⟨⟨name, maskOf param⟩, List.mem_filterMap.2 ⟨(name, param), hmem, ?_⟩, rfl⟩
      simp [selectParam, h]
  · simp only [selectParam]
    by_cases h : (pyIn "weight" name && W name) = true <;> simp [h]

/-- Witness for `hook_registration_iff`: parameter
`"decoder.layers.2.weight"` with values `[0, 5/2, 0, -1]` under a
whitelist accepting everything. -/
theorem hook_registration_iff_witness :
    ((∃ e ∈ installAll (fun _ => true)
        [("decoder.layers.2.weight", [(0 : ℚ), 5/2, 0, -1])],
      e.name = "decoder.layers.2.weight") ↔
      (pyIn "weight" "decoder.layers.2.weight" && true) = true) ∧
    (selectParam (fun _ => true) "decoder.layers.2.weight"
        [(0 : ℚ), 5/2, 0, -1] = none ↔
      ¬((pyIn "weight" "decoder.layers.2.weight" && true) = true)) :=
  hook_registration_iff (fun _ => true)
    [("decoder.layers.2.weight", [(0 : ℚ), 5/2, 0, -1])]
    "decoder.layers.2.weight" [(0 : ℚ), 5/2, 0, -1] (by simp)

/-! ### Pruned positions stay zero through training (C1)

Line 191 instantiates `torch.optim.AdamW(lr=lr, weight_decay=2e-4)`
(defaults `betas=(0.9, 0.999)`, `eps=1e-8`); lines 242-263 run
`accelerator.backward` (which accumulates the hook-masked gradient into
`.grad`), then `optimizer.step()` / `optimizer.zero_grad()` whenever
`step % gradient_accumulation_steps == 0`.  The update at one coordinate
of one parameter is embedded below; the learning rate is an arbitrary
per-step value `lrs` (the external scheduler). -/

/-- Per-coordinate AdamW optimizer state: the parameter value, the two
exponential moving averages, and the step count. -/
structure AdamWCoord where
  theta : ℚ
  expAvg : ℚ
  expAvgSq : ℚ
  step : ℕ
deriving DecidableEq

/-- One AdamW update at one coordinate, following PyTorch's `adamw`:
decoupled weight decay `θ *= 1 - lr*wd`, moment updates, bias correction,
and `θ -= (lr/bc1) * m / (sqrt(v)/sqrt(bc2) + eps)`.  `Rat.sqrt` stands in
for the floating-point square root. -/
def adamwStep (lr beta1 beta2 eps wd g : ℚ) (s : AdamWCoord) : AdamWCoord :=
  let t := s.step + 1
  let theta0 := s.theta * (1 - lr * wd)
  let m := beta1 * s.expAvg + (1 - beta1) * g
  let v := beta2 * s.expAvgSq + (1 - beta2) * g ^ 2
  let bc1 := 1 - beta1 ^ t
  let bc2 := 1 - beta2 ^ t
  let denom := Rat.sqrt v / Rat.sqrt bc2 + eps
  ⟨theta0 - lr / bc1 * m / denom, m, v, t⟩

/-- One iteration of the inner training loop at one coordinate: the hook
masks the raw gradient `ig.2`, `backward` adds it to the `.grad` buffer,
and when the step index `ig.1` hits the accumulation boundary the AdamW
step (with the scheduler's current learning rate and the script's
hyperparameters `betas=(0.9,0.999)`, `eps=1e-8`, `weight_decay=2e-4`)
consumes the buffer, which `zero_grad` then clears. -/
def trainStepCoord (lrs : ℕ → ℚ) (gas : ℕ) (maskBit : Bool)
    (acc : AdamWCoord × ℚ) (ig : ℕ × ℚ) : AdamWCoord × ℚ :=
  let buf := acc.2 + hookApply maskBit ig.2
  if ig.1 % gas = 0 then
    (adamwStep (lrs ig.1) (9/10) (999/1000) (1/100000000) (1/5000) buf acc.1, 0)
  else
    (acc.1, buf)

/-- The training loop at one coordinate: fold the per-step update over the
enumerated raw-gradient sequence, starting from a clean optimizer state
and an empty `.grad` buffer. -/
def trainCoord (lrs : ℕ → ℚ) (gas : ℕ) (maskBit : Bool) (gs : List ℚ)
    (s : AdamWCoord) : AdamWCoord × ℚ :=
  (List.enum gs).foldl (trainStepCoord lrs gas maskBit) (s, 0)

theorem hookApply_false (g : ℚ) : hookApply false g = 0 := by
  simp [hookApply, boolToQ]

theorem adamwStep_zero (lr beta1 beta2 eps wd : ℚ) (t : ℕ) :
    adamwStep lr beta1 beta2 eps wd 0 ⟨0, 0, 0, t⟩ = ⟨0, 0, 0, t + 1⟩ := by
  simp [adamwStep]

/-- The coordinate invariant under a dead mask bit: parameter, moments and
gradient buffer all zero. -/
def ZeroState (acc : AdamWCoord × ℚ) : Prop :=
  acc.1.theta = 0 ∧ acc.1.expAvg = 0 ∧ acc.1.expAvgSq = 0 ∧ acc.2 = 0

theorem trainStepCoord_zero (lrs : ℕ → ℚ) (gas : ℕ) (acc : AdamWCoord × ℚ)
    (ig : ℕ × ℚ) (hz : ZeroState acc) :
    ZeroState (trainStepCoord lrs gas false acc ig) := by
  obtain ⟨⟨th, m, v, t⟩, buf⟩ := acc
  obtain ⟨h1, h2, h3, h4⟩ := hz
  dsimp only at h1 h2 h3 h4
  subst h1; subst h2; subst h3; subst h4
  simp only [trainStepCoord, hookApply_false, add_zero]
  split
  · rw [adamwStep_zero]
    exact ⟨rfl, rfl, rfl, rfl⟩
  · exact ⟨rfl, rfl, rfl, rfl⟩

theorem trainFold_zero (lrs : ℕ → ℚ) (gas : ℕ) (ps : List (ℕ × ℚ)) :
    ∀ acc : AdamWCoord × ℚ, ZeroState acc →
      ZeroState (ps.foldl (trainStepCoord lrs gas false) acc) := by
  induction ps with
  | nil => intro acc hz; exact hz
  | cons p ps ih =>
      intro acc hz
      exact ih _ (trainStepCoord_zero lrs gas acc p hz)

/-- **C1.** For a parameter selected for masking, any coordinate that is
exactly zero at hook-registration time receives a zero gradient from the
hook on every backward pass, and through any sequence of AdamW updates
(any learning-rate schedule, any gradient-accumulation period, any raw
gradients) the coordinate stays exactly zero. -/
theorem pruned_stay_zero (P : Tensor) (i : ℕ) (hi : i < P.length)
    (h0 : P.getD i 0 = 0) (lrs : ℕ → ℚ) (gas : ℕ) (gs : List ℚ) :
    (∀ g ∈ gs, hookApply ((maskOf P).getD i false) g = 0) ∧
    (trainCoord lrs gas ((maskOf P).getD i false) gs
      ⟨P.getD i 0, 0, 0, 0⟩).1.theta = 0 := by
  have hmask : (maskOf P).getD i false = false := by
    rw [maskOf_getD P i hi, h0]
    simp
  rw [hmask, h0]
  constructor
  · intro g _
    exact hookApply_false g
  · exact (trainFold_zero lrs gas (List.enum gs) (⟨0, 0, 0, 0⟩, 0)
      ⟨rfl, rfl, rfl, rfl⟩).1

/-- Witness for `pruned_stay_zero`: `P = [0, 2]`, coordinate `0`,
gradients `[5, -3]`, constant learning rate `1/1000`, accumulation 1. -/
theorem pruned_stay_zero_witness :
    hookApply ((maskOf [(0 : ℚ), 2]).getD 0 false) 5 = 0 ∧
    (trainCoord (fun _ => 1/1000) 1 ((maskOf [(0 : ℚ), 2]).getD 0 false)
      [5, -3] ⟨[(0 : ℚ), 2].getD 0 0, 0, 0, 0⟩).1.theta = 0 :=
  ⟨(pruned_stay_zero [(0 : ℚ), 2] 0 (by decide) (by decide)
      (fun _ => 1/1000) 1 [5, -3]).1 5 (by simp),
   (pruned_stay_zero [(0 : ℚ), 2] 0 (by decide) (by decide)
      (fun _ => 1/1000) 1 [5, -3]).2⟩

/-! ### Checkpointing-steps validation and the training trace (C6, C8, C9, C10)

Lines 98-108 validate `args.checkpointing_steps` (a `str` or `None`; only
strings have `.isdigit`, so `hasattr(..., "isdigit")` distinguishes the
two).  Lines 235-273 run the epoch/step loops, saving a step checkpoint
when `checkpointing_steps` is an `int` dividing `overall_step`.  Lines
292-296 remove all hooks and then save the final model under
`pruned_models/{model_name}-{sparsity}-finetuned.pt`. -/

/-- The validated checkpointing mode: the sentinel `"epoch"` or a step
count parsed by `int(...)`. -/
inductive CheckSteps
  | epoch
  | steps (n : ℕ)
deriving DecidableEq

/-- Python's `str.isdigit` (ASCII fragment): nonempty and all digits. -/
def pyIsdigit (s : String) : Bool :=
  !s.isEmpty && s.toList.all Char.isDigit

/-- The error text of line 104's `ValueError`. -/
def checkpointingError (s : String) : String :=
  "Argument `checkpointing_steps` must be either a number or `epoch`. `"
    ++ s ++ "` passed."

/-- Lines 98-108: validate `args.checkpointing_steps`.  `None` has no
`isdigit` attribute, so it passes through as `None`; a string must be
`"epoch"` or all digits, anything else raises `ValueError`. -/
def validateCheckpointingSteps : Option String → Except String (Option CheckSteps)
  | none => Except.ok none
  | some s =>
      if s = "epoch" then Except.ok (some CheckSteps.epoch)
      else if pyIsdigit s then Except.ok (some (CheckSteps.steps (s.toNat?.getD 0)))
      else Except.error (checkpointingError s)

/-- Observable events of one run of `training_function`. -/
inductive Event
  | backward (step : ℕ)
  | saveState (step : ℕ)
  | removeHooks
  | saveModel (path : String)
deriving DecidableEq

/-- Events of one inner-loop iteration (lines 242-273): the backward pass,
then — `overall_step` having just been incremented to `j + 1` — a state
checkpoint when `checkpointing_steps` is an `int` dividing it. -/
def stepEvents (cs : Option CheckSteps) (j : ℕ) : List Event :=
  Event.backward j ::
    (match cs with
     | some (CheckSteps.steps k) =>
         if (j + 1) % k = 0 then [Event.saveState (j + 1)] else []
     | _ => [])

/-- The epoch/step loops of lines 235-273, flattened: `numEpochs` epochs
of `stepsPerEpoch` inner steps (the dataloader length after the
`max_step` break), with `overall_step` counting across epochs. -/
def trainLoop (cs : Option CheckSteps) (numEpochs stepsPerEpoch : ℕ) :
    List Event :=
  (List.range (numEpochs * stepsPerEpoch)).flatMap (stepEvents cs)

/-- Python truthiness for the configuration values `save_model` can hold. -/
inductive PyValue
  | none
  | bool (b : Bool)
  | int (n : ℤ)
  | str (s : String)
deriving DecidableEq

/-- `bool(v)` for the embedded values. -/
def truthy : PyValue → Bool
  | PyValue.none => false
  | PyValue.bool b => b
  | PyValue.int n => decide (n ≠ 0)
  | PyValue.str s => !s.isEmpty

/-- Line 295's guard `not config.get('save_model') or config['save_model']`:
`config.get` yields `None` when the key is absent, and the short-circuit
`or` only evaluates the subscript when `get` returned a truthy value (so
the key is present and the subscript yields that same value). -/
def saveGuard (saveModelEntry : Option PyValue) : Bool :=
  let got := saveModelEntry.getD PyValue.none
  !truthy got || truthy got

/-- Line 296's save path `pruned_models/{model_name}-{sparsity}-finetuned.pt`. -/
def savePath (modelName sparsity : String) : String :=
  "pruned_models/" ++ modelName ++ "-" ++ sparsity ++ "-finetuned.pt"

/-- `training_function` as a trace generator: validate
`checkpointing_steps`, run the training loop, remove all hooks (line 292),
then save the final model when line 295's guard holds. -/
def trainingFunction (argsCS : Option String) (saveModelEntry : Option PyValue)
    (modelName sparsity : String) (numEpochs stepsPerEpoch : ℕ) :
    Except String (List Event) :=
  match validateCheckpointingSteps argsCS with
  | Except.error e => Except.error e
  | Except.ok cs =>
      Except.ok (trainLoop cs numEpochs stepsPerEpoch ++
        Event.removeHooks ::
          (if saveGuard saveModelEntry
           then [Event.saveModel (savePath modelName sparsity)] else []))

/-- **C6.** A checkpointing-steps argument that is neither all digits nor
the sentinel `"epoch"` makes setup fail fast with the descriptive
`ValueError` of line 104: the run produces no trace at all (no training
step, no checkpoint, no save), only the error. -/
theorem invalid_checkpointing_fails_fast (s : String) (hne : s ≠ "epoch")
    (hnd : pyIsdigit s = false) (saveModelEntry : Option PyValue)
    (modelName sparsity : String) (numEpochs stepsPerEpoch : ℕ) :
    trainingFunction (some s) saveModelEntry modelName sparsity
      numEpochs stepsPerEpoch = Except.error (checkpointingError s) := by
  simp [trainingFunction, validateCheckpointingSteps, hne, hnd]

/-- Witness for `invalid_checkpointing_fails_fast` at `s = "abc"`. -/
theorem invalid_checkpointing_fails_fast_witness :
    trainingFunction (some "abc") none "opt-125m" "0.5" 1 2 =
      Except.error (checkpointingError "abc") :=
  invalid_checkpointing_fails_fast "abc" (by decide) (by decide) none
    "opt-125m" "0.5" 1 2

theorem trainLoop_events (cs : Option CheckSteps) (numEpochs stepsPerEpoch : ℕ)
    (e : Event) (he : e ∈ trainLoop cs numEpochs stepsPerEpoch) :
    (∃ j, e = Event.backward j) ∨ (∃ j, e = Event.saveState j) := by
  rcases List.mem_flatMap.1 he with ⟨j, _, hj⟩
  rcases List.mem_cons.1 hj with h | h
  · exact Or.inl ⟨j, h⟩
  · right
    rcases cs with _ | cs
    · simp [stepEvents] at h
    · cases cs with
      | epoch => simp [stepEvents] at h
      | steps k =>
          dsimp only at h
          split at h
          · rcases List.mem_singleton.1 h with rfl
            exact ⟨j + 1, rfl⟩
          · simp at h

/-- **C8.** In every execution that completes, the trace splits as
`pre ++ removeHooks :: post` where `pre` (the whole training loop)
contains no model save: all masking hooks are removed before the final
model is serialized. -/
theorem hooks_removed_before_save (argsCS : Option String)
    (saveModelEntry : Option PyValue) (modelName sparsity : String)
    (numEpochs stepsPerEpoch : ℕ) (tr : List Event)
    (h : trainingFunction argsCS saveModelEntry modelName sparsity
      numEpochs stepsPerEpoch = Except.ok tr) :
    ∃ pre post, tr = pre ++ Event.removeHooks :: post ∧
      ∀ p, Event.saveModel p ∉ pre := by
  rcases hv : validateCheckpointingSteps argsCS with e | cs
  · rw [trainingFunction, hv] at h
    exact absurd h (by simp)
  · simp only [trainingFunction, hv, Except.ok.injEq] at h
    refine ⟨trainLoop cs numEpochs stepsPerEpoch, _, h.symm, fun p hp => ?_⟩
    rcases trainLoop_events cs numEpochs stepsPerEpoch _ hp with ⟨j, hj⟩ | ⟨j, hj⟩ <;>
      cases hj

/-- Witness for `hooks_removed_before_save`: a one-epoch, two-step run
with no checkpointing argument. -/
theorem hooks_removed_before_save_witness :
    ∃ pre post,
      [Event.backward 0, Event.backward 1, Event.removeHooks,
        Event.saveModel (savePath "opt-125m" "0.5")] =
        pre ++ Event.removeHooks :: post ∧
      ∀ p, Event.saveModel p ∉ pre :=
  hooks_removed_before_save none none "opt-125m" "0.5" 1 2 _ rfl

/-- **C9.** Line 295's guard is a tautology: whatever `save_model` holds
(absent key, explicit `False`, any truthy or falsy value), the guard
evaluates to true, so every completed run's trace ends with the final
model save — the configuration cannot disable it. -/
theorem save_guard_tautology (saveModelEntry : Option PyValue) :
    saveGuard saveModelEntry = true ∧
    ∀ (argsCS : Option String) (modelName sparsity : String)
      (numEpochs stepsPerEpoch : ℕ) (tr : List Event),
      trainingFunction argsCS saveModelEntry modelName sparsity
        numEpochs stepsPerEpoch = Except.ok tr →
      Event.saveModel (savePath modelName sparsity) ∈ tr := by
  have hg : saveGuard saveModelEntry = true := by
    rw [saveGuard]
    cases truthy (saveModelEntry.getD PyValue.none) <;> rfl
  refine ⟨hg, fun argsCS modelName sparsity numEpochs stepsPerEpoch tr h => ?_⟩
  rcases hv : validateCheckpointingSteps argsCS with e | cs
  · rw [trainingFunction, hv] at h
    exact absurd h (by simp)
  · simp only [trainingFunction, hv, Except.ok.injEq] at h
    rw [← h, hg]
    simp

/-- Witness for `save_guard_tautology` at an explicit `False` entry and a
concrete completed run. -/
theorem save_guard_tautology_witness :
    saveGuard (some (PyValue.bool false)) = true ∧
    Event.saveModel (savePath "opt-125m" "0.5") ∈
      [Event.backward 0, Event.backward 1, Event.removeHooks,
        Event.saveModel (savePath "opt-125m" "0.5")] :=
  ⟨(save_guard_tautology (some (PyValue.bool false))).1,
   (save_guard_tautology (some (PyValue.bool false))).2 none "opt-125m" "0.5"
     1 2 _ rfl⟩

/-- **C10.** With no checkpointing-steps argument, setup does not raise:
the run completes with `checkpointing_steps = None` and its trace contains
no step-checkpoint save at all. -/
theorem none_checkpointing_no_saves (saveModelEntry : Option PyValue)
    (modelName sparsity : String) (numEpochs stepsPerEpoch : ℕ) :
    validateCheckpointingSteps none = Except.ok none ∧
    ∃ tr, trainingFunction none saveModelEntry modelName sparsity
        numEpochs stepsPerEpoch = Except.ok tr ∧
      ∀ j, Event.saveState j ∉ tr := by
  refine ⟨rfl, _, rfl, fun j hj => ?_⟩
  rcases List.mem_append.1 hj with h | h
  · rcases trainLoop_events none numEpochs stepsPerEpoch _ h with ⟨i, hi⟩ | ⟨i, hi⟩
    · cases hi
    · cases hi
      rcases List.mem_flatMap.1 h with ⟨l, _, hl⟩
      simp [stepEvents] at hl
  · rcases List.mem_cons.1 h with h | h
    · cases h
    · split at h <;> simp at h

/-! ### Idempotent hook cleanup (C7)

`remove_all_hooks` is imported from `utils/prehook_utils.py`, whose source
is not part of this snapshot; it is modelled from the spec below. -/

/-- The model-plus-registry state the lifecycle manager acts on: the named
parameters and the currently registered masking hooks. -/
structure TrainState where
  params : List (String × Tensor)
  hooks : List HookEntry
deriving DecidableEq

/-- Modelled from the spec: `remove_all_hooks` (imported at line 24 from
`utils/prehook_utils.py`, source not in the snapshot).  Per §4.3, it
removes every handle currently in the registry, leaving the registry empty
and the model carrying no masking hooks, and it touches nothing else; on
an empty registry it is an explicit no-op, not an error. -/
def removeAllHooks (st : TrainState) : TrainState :=
  { st with hooks := [] }

/-- **C7.** `removeAll` twice equals `removeAll` once; a second call — or
a call on a registry with no hooks — changes nothing and affects no
parameter. -/
theorem removeAll_idempotent (st : TrainState) :
    removeAllHooks (removeAllHooks st) = removeAllHooks st ∧
    (removeAllHooks st).params = st.params ∧
    (st.hooks = [] → removeAllHooks st = st) := by
  refine ⟨rfl, rfl, fun h => ?_⟩
  cases st
  simp_all [removeAllHooks]

/-- Witness for `removeAll_idempotent` on a hook-free state. -/
theorem removeAll_idempotent_witness :
    removeAllHooks (removeAllHooks ⟨[("a.weight", [0, 1])], []⟩) =
      removeAllHooks ⟨[("a.weight", [0, 1])], []⟩ ∧
    (removeAllHooks ⟨[("a.weight", [0, 1])], []⟩).params =
      (⟨[("a.weight", [0, 1])], []⟩ : TrainState).params ∧
    removeAllHooks ⟨[("a.weight", [0, 1])], []⟩ =
      (⟨[("a.weight", [0, 1])], []⟩ : TrainState) :=
  ⟨(removeAll_idempotent ⟨[("a.weight", [0, 1])], []⟩).1,
   (removeAll_idempotent ⟨[("a.weight", [0, 1])], []⟩).2.1,
   (removeAll_idempotent ⟨[("a.weight", [0, 1])], []⟩).2.2 rfl⟩
